import Mathlib

/-!
Verification of the etcd membership-reconciliation scripts
(`entrypoint.py`, `etcd_start.py`, `k8s_etcd_watcher.py`).

The Python sources are shallowly embedded below:
- pure helpers (`_etcd_members_as_string`, `_get_etcd_member_id`, the peer
  serialization in `_get_cluster_members`) become Lean functions on lists;
- the HTTP environment is passed explicitly: the responses the scripts would
  receive (member lists, status codes) are parameters, and each network
  operation performed is recorded in an explicit call trace;
- Python exceptions become `Option`/`Except` results; `requests` exceptions
  (the only ones the `retry` decorator catches) are the error type of the
  `Except`;
- the `retry` decorator (identical in `entrypoint.py` and `etcd_start.py`)
  becomes `retryLoop`, a fuel-indexed loop over a stream of per-call results.
-/

/-- Syntactic model of a member object returned by the etcd v2 members API:
the `id`, `name` and `peerURLs` fields that the scripts read. -/
structure Member where
  id : String
  name : String
  peerURLs : List String
deriving DecidableEq, Repr

/-- Python `list.__contains__` for strings (`reason in args.reasons`):
membership by equality, scanning left to right. -/
def strElem (x : String) : List String → Bool
  | [] => false
  | y :: ys => if x = y then true else strElem x ys

/-- Helper for substring search: whether the first list of characters is a
prefix of the second. -/
def isPrefixB : List Char → List Char → Bool
  | [], _ => true
  | _ :: _, [] => false
  | a :: as, b :: bs => a == b && isPrefixB as bs

/-- Helper for substring search: whether the first list of characters occurs
contiguously inside the second. -/
def isInfB (needle : List Char) : List Char → Bool
  | [] => isPrefixB needle []
  | b :: bs => isPrefixB needle (b :: bs) || isInfB needle bs

/-- Python `needle in hay` on strings: contiguous substring test.  Used by
`entrypoint.py` (`config.name in members`) and the watcher
(`"etcd" in name`). -/
def strIn (needle hay : String) : Bool := isInfB needle.data hay.data

/-- Items of the peer-set serialization of `_etcd_members_as_string`
(`entrypoint.py` lines 162-168): one `name=peerURLs[0]` string per member
whose `name` is truthy (non-empty), in list order.  `none` models the
`IndexError` Python raises when `m['peerURLs'][0]` is evaluated on an empty
`peerURLs` list (only reachable for members with a non-empty name, because
the `if m['name']` guard short-circuits first). -/
def memberItems : List Member → Option (List String)
  | [] => some []
  | m :: rest =>
      if m.name = "" then memberItems rest
      else
        match m.peerURLs with
        | [] => none
        | u :: _ =>
            match memberItems rest with
            | none => none
            | some l => some ((m.name ++ "=" ++ u) :: l)

/-- The function `_etcd_members_as_string` of `entrypoint.py`: comma-joined
`name=peerURL` pairs; `none` models the `IndexError` on an empty `peerURLs`
of a non-empty-named member. -/
def etcd_members_as_string (peers : List Member) : Option String :=
  (memberItems peers).map (String.intercalate ",")

/-- Items of the serialization inside `_get_cluster_members` of
`etcd_start.py` (lines 111-125): identical to `memberItems` except the guard
is written `len(m['name']) > 0`. -/
def startMemberItems : List Member → Option (List String)
  | [] => some []
  | m :: rest =>
      if 0 < m.name.length then
        match m.peerURLs with
        | [] => none
        | u :: _ =>
            match startMemberItems rest with
            | none => none
            | some l => some ((m.name ++ "=" ++ u) :: l)
      else startMemberItems rest

/-- The serialization step of `_get_cluster_members` in `etcd_start.py`,
applied to an already-fetched member list. -/
def get_cluster_members_str (peers : List Member) : Option String :=
  (startMemberItems peers).map (String.intercalate ",")

/-- The function `_get_etcd_member_id` of `entrypoint.py` (lines 171-177):
`members = [p['id'] for p in peers if p['name'] == name]`, then
`members[0]` if non-empty else `None`. -/
def get_etcd_member_id (peers : List Member) (name : String) : Option String :=
  ((peers.filter (fun p => p.name == name)).map Member.id).head?

/-- The function `_get_etcd_member_id` of `k8s_etcd_watcher.py` (lines
56-62): the member collection there is a dict id -> data, modelled as an
association list of `(id, name)` pairs in iteration order;
`[k for k, v in members.iteritems() if v['name'] == name]`, then first or
`None`. -/
def get_etcd_member_id_w (members : List (String × String)) (name : String) :
    Option String :=
  ((members.filter (fun kv => kv.2 == name)).map Prod.fst).head?

/-- Specification-side form of `resolveId`: the id of the first member of the
list whose name matches, in list order (spec section 4.1). -/
def resolveIdSpec (peers : List Member) (name : String) : Option String :=
  (peers.find? (fun p => p.name == name)).map Member.id

/-- Default `connection_attempts` (`Configuration.__init__` in
`entrypoint.py` and `CONNECTION_ATTEMPTS` in `etcd_start.py`). -/
def connection_attempts : Nat := 5

/-- Default `connection_delay`, seconds (`Configuration.__init__` in
`entrypoint.py` and `CONNECTION_DELAY` in `etcd_start.py`).  The sleep has no
observable effect on results and is not otherwise modelled. -/
def connection_delay : Nat := 2

/-- The `retry` decorator of `entrypoint.py` lines 23-36 (identical in
`etcd_start.py` lines 27-40):

```text
attempts = connection_attempts
while attempts > 1:
    try: return f()
    except (RequestException, ConnectionError): sleep; attempts -= 1
return f()
```

`f` is modelled as a map from the call index (0-based) to that call's
result; the error type stands for the caught `requests` exception hierarchy
(`ConnectionError` is a subclass of `RequestException`, so the decorator
catches every `requests` exception, `HTTPError` from `raise_for_status`
included).  With fuel `0` or `1` the loop body never runs and the single
final unguarded call is made. -/
def retryLoop {E α : Type} (f : Nat → Except E α) : Nat → Nat → Except E α
  | 0, i => f i
  | 1, i => f i
  | n + 2, i =>
      match f i with
      | Except.ok a => Except.ok a
      | Except.error _ => retryLoop f (n + 1) (i + 1)

/-- A retried operation, started with a given attempt budget at call index
0. -/
def retryRun {E α : Type} (f : Nat → Except E α) (attempts : Nat) : Except E α :=
  retryLoop f attempts 0

/-- The exceptions raised by the `requests` calls of the scripts, i.e. the
hierarchy the `retry` decorator catches: transport-level `ConnectionError`
and `HTTPError` (raised by `Response.raise_for_status`, carrying the HTTP
status). -/
inductive ReqError where
  | connError
  | httpError (status : Nat)
deriving DecidableEq, Repr

/-- Model of `requests.Response.raise_for_status()`: raises `HTTPError` for a
status in 400-599, otherwise returns `None`. -/
def raise_for_status (status : Nat) : Except ReqError Unit :=
  if 400 ≤ status ∧ status < 600 then Except.error (ReqError.httpError status)
  else Except.ok ()

/-- One un-retried call of `_add_etcd_member` of `entrypoint.py` (lines
117-131), as a function of the HTTP status of the POST response: on 201 it
returns the peer URL; on 500 it logs and calls `raise_for_status`; on any
other status it calls `raise_for_status` (and so returns `None` for a
non-201 status below 400). -/
def add_etcd_member_once (peer_url : String) (status : Nat) :
    Except ReqError (Option String) :=
  if status = 201 then Except.ok (some peer_url)
  else (raise_for_status status).map (fun _ => none)

/-- The `@retry`-wrapped `_add_etcd_member`, as a function of the statuses
of the successive POST responses. -/
def add_etcd_member (peer_url : String) (statuses : Nat → Nat) :
    Except ReqError (Option String) :=
  retryRun (fun i => add_etcd_member_once peer_url (statuses i)) connection_attempts

/-- One un-retried call of the `_add_etcd_member` variant of
`etcd_start.py` (lines 95-108): `if r.status_code in (201, 409)` returns the
peer name — 409 is a second success status there — otherwise
`raise_for_status` exactly as in the entrypoint variant. -/
def add_etcd_member_once_s (peer_name : String) (status : Nat) :
    Except ReqError (Option String) :=
  if status = 201 ∨ status = 409 then Except.ok (some peer_name)
  else (raise_for_status status).map (fun _ => none)

/-- The `@retry`-wrapped `_add_etcd_member` of `etcd_start.py`
(`CONNECTION_ATTEMPTS` is also 5). -/
def add_etcd_member_s (peer_name : String) (statuses : Nat → Nat) :
    Except ReqError (Option String) :=
  retryRun (fun i => add_etcd_member_once_s peer_name (statuses i)) connection_attempts

/-- One HTTP request the join sequence of `entrypoint.py` performs against
the members API.  `deleteCall none` is the degenerate DELETE of the
collection URL itself that happens when `_get_etcd_member_id` returned
`None` (Python 2 `urlparse.urljoin(base, None)` returns `base`). -/
inductive ApiCall where
  | listCall
  | deleteCall (id : Option String)
  | addCall (peerURL : String)
deriving DecidableEq, Repr

/-- The plan the join sequence ends with: `bootstrap` stands for
`start_etcd(config, bootstrap=True)`, `join s` for
`start_etcd(config, initial_members=s)`. -/
inductive Plan where
  | bootstrap
  | join (initialMembers : String)
deriving DecidableEq, Repr

/-- Node identity of `entrypoint.py`'s `Configuration`: `name` and
`peer_url` as derived in `Configuration.__init__`. -/
structure Config where
  name : String
  peer_url : String
deriving DecidableEq, Repr

/-- `Configuration.member_name`: `"%s=%s" % (self.name, self.peer_url)`. -/
def member_name (cfg : Config) : String := cfg.name ++ "=" ++ cfg.peer_url

/-- The control-plane responses one pass of the join sequence observes.
`probe` is the result of the initial `_get_etcd_members` call (`none` models
a `ConnectionError`, the case `__main__` catches); `relist` is the member
list returned by the second GET, the one `_delete_etcd_member` performs
internally.  DELETE of a resolved id is taken to return 204 and the POST of
the add 201 (the successful path); a failing request would enter the retry
wrapper, which is modelled separately by `retryLoop` and does not change
which kinds of call happen in which order on a pass. -/
structure JoinEnv where
  probe : Option (List Member)
  relist : List Member
deriving Repr

/-- The function `_delete_etcd_member` of `entrypoint.py` (lines 134-148) on
the fetched list `relist`: resolve the id of `name` from a fresh GET of the
member list, DELETE that id, and return the *locally filtered* list
`[p for p in peers if p['name'] != name]`.  If the id resolves to `None` the
DELETE goes to the collection URL and cannot return 204, so the pass fails
(`none`). -/
def delete_etcd_member (relist : List Member) (name : String) :
    List ApiCall × Option (List Member) :=
  match get_etcd_member_id relist name with
  | none => ([ApiCall.listCall, ApiCall.deleteCall none], none)
  | some i =>
      ([ApiCall.listCall, ApiCall.deleteCall (some i)],
       some (relist.filter (fun p => p.name != name)))

/-- One pass of the `__main__` join sequence of `entrypoint.py` (lines
180-211): probe the member list (a `ConnectionError` means
`members = ""`), serialize it, bootstrap if the serialization is falsy;
otherwise, if `config.name` occurs as a substring of the serialized string,
run `_delete_etcd_member` and re-serialize its return value; then add self
and join with `new_members + ',' + config.member_name`.  The returned pair
is the trace of members-API requests made and the resulting plan (`none`
when the pass dies with an uncaught exception). -/
def joinSequence (cfg : Config) (env : JoinEnv) : List ApiCall × Option Plan :=
  match env.probe with
  | none => ([ApiCall.listCall], some Plan.bootstrap)
  | some peers =>
      match etcd_members_as_string peers with
      | none => ([ApiCall.listCall], none)
      | some members =>
          if members = "" then
            ([ApiCall.listCall], some Plan.bootstrap)
          else if strIn cfg.name members then
            match delete_etcd_member env.relist cfg.name with
            | (tr, none) => (ApiCall.listCall :: tr, none)
            | (tr, some newPeers) =>
                match etcd_members_as_string newPeers with
                | none => (ApiCall.listCall :: tr, none)
                | some newMembers =>
                    (ApiCall.listCall :: (tr ++ [ApiCall.addCall cfg.peer_url]),
                     some (Plan.join (newMembers ++ "," ++ member_name cfg)))
          else
            ([ApiCall.listCall, ApiCall.addCall cfg.peer_url],
             some (Plan.join (members ++ "," ++ member_name cfg)))

/-- Whether a trace entry is a DELETE. -/
def isDeleteCall : ApiCall → Bool
  | ApiCall.deleteCall _ => true
  | _ => false

/-- Whether a trace entry is a member-add POST. -/
def isAddCall : ApiCall → Bool
  | ApiCall.addCall _ => true
  | _ => false

/-- Whether a trace entry is a member-list GET. -/
def isListCall : ApiCall → Bool
  | ApiCall.listCall => true
  | _ => false

/-- Whether, strictly between the first DELETE of a trace and the first
subsequent add, a member-list GET occurs: the re-probe the specification
describes. -/
def reprobeAfterDelete (tr : List ApiCall) : Bool :=
  ((((tr.dropWhile (fun c => !isDeleteCall c)).drop 1).takeWhile
      (fun c => !isAddCall c)).any isListCall)

/-- A decoded lifecycle event as the watcher reads it: the
`involvedObject`'s `kind`, `name` and `namespace`, and the event `reason`. -/
structure KEvent where
  kind : String
  name : String
  ns : String
  reason : String
deriving DecidableEq, Repr

/-- One line of the event feed: either a well-formed JSON event or a line on
which `json.loads` (or the subsequent key accesses) raises. -/
inductive LineData where
  | malformed
  | ev (e : KEvent)
deriving DecidableEq, Repr

/-- Default trigger-reason list `REASONS` of `k8s_etcd_watcher.py`. -/
def REASONS : List String := ["NodeControllerEviction", "Killing"]

/-- The per-event guard of the watcher's `__main__` loop (line 128):
`reason in args.reasons and "etcd" in name`. -/
def watcherActs (reasons : List String) (e : KEvent) : Bool :=
  strElem e.reason reasons && strIn "etcd" e.name

/-- The watcher's inner `for line in stream.iter_lines()` loop
(`k8s_etcd_watcher.py` lines 122-134) over the lines of one stream: returns
the names for which a member deletion was attempted, in order, and whether
the loop died with an uncaught exception (`json.loads` raising on a
malformed line).  `false` in the second component means the stream was
consumed to its end, after which the outer `while True` reconnects. -/
def processLines (reasons : List String) : List LineData → List String × Bool
  | [] => ([], false)
  | LineData.malformed :: _ => ([], true)
  | LineData.ev e :: rest =>
      if watcherActs reasons e then
        (e.name :: (processLines reasons rest).1, (processLines reasons rest).2)
      else processLines reasons rest

/-- The function `_delete_etcd_member` of `k8s_etcd_watcher.py` (lines
65-88), as a function of the fetched member dict and of the status the
DELETE of a given id would return: resolve the id of `name`; if found,
DELETE it and return `True` exactly on a 204; in every other case (id
absent, or non-204 status) log and return `False`.  No exception escapes:
the function is total and the watch loop continues either way. -/
def delete_etcd_member_w (members : List (String × String)) (name : String)
    (deleteStatus : String → Nat) : Bool :=
  match get_etcd_member_id_w members name with
  | some i => if deleteStatus i = 204 then true else false
  | none => false

/-- Concrete identity used in the join-sequence scenarios. -/
def selfCfg : Config := ⟨"n1", "http://n1:2380"⟩

/-- Concrete member list that contains the node itself (under id "abc"),
as in end-to-end scenario 3 of the specification. -/
def peersWithSelf : List Member :=
  [⟨"abc", "n1", ["http://p1:2380"]⟩, ⟨"id2", "n2", ["http://p2:2380"]⟩]

/-- Environment whose probe and re-fetch both return `peersWithSelf`. -/
def envWithSelf : JoinEnv := ⟨some peersWithSelf, peersWithSelf⟩

/-- Concrete non-empty member list whose single member has an empty name. -/
def emptyNamePeers : List Member := [⟨"i1", "", ["http://p9:2380"]⟩]

/-- Concrete identity of end-to-end scenario 2 of the specification. -/
def scen2Cfg : Config := ⟨"n1", "http://10.0.0.1:2380"⟩

/-- Concrete member list of end-to-end scenario 2. -/
def scen2Peers : List Member := [⟨"id2", "n2", ["http://10.0.0.2:2380"]⟩]

/-- Demo operation failing on the first four calls, succeeding on the
fifth. -/
def retryDemoA : Nat → Except Nat Nat :=
  fun i => if i < 4 then Except.error i else Except.ok 42

/-- Demo operation failing on every call. -/
def retryDemoB : Nat → Except Nat Nat := fun i => Except.error i

/-- Concrete watcher-side member dict with no member named "etcd-2". -/
def watcherMembers : List (String × String) := [("aaa", "etcd-1"), ("bbb", "etcd-3")]

/-- Helper: the head of a filtered-then-mapped list is the image of the
first match. -/
theorem head_filter_map_eq_find {β γ : Type} (g : β → γ) (pred : β → Bool) :
    ∀ l : List β, ((l.filter pred).map g).head? = (l.find? pred).map g := by
  intro l
  induction l with
  | nil => rfl
  | cons x xs ih => cases hx : pred x <;> simp [List.filter, List.find?, hx, ih]

/-- Helper: a string has positive length exactly when it is non-empty. -/
theorem string_length_pos_iff (s : String) : 0 < s.length ↔ s ≠ "" := by
  rw [← String.length_data, List.length_pos]
  constructor
  · intro h he
    exact h (by rw [he])
  · intro h hd
    exact h (String.toList_inj.mp (hd.trans rfl))

/-- Helper: Python list membership agrees with `∈`. -/
theorem strElem_eq_true_iff (x : String) :
    ∀ l : List String, strElem x l = true ↔ x ∈ l := by
  intro l
  induction l with
  | nil => simp [strElem]
  | cons y ys ih => by_cases h : x = y <;> simp [strElem, h, ih]

/-- Helper: if every call up to absolute index `j + n` fails with a caught
exception, the retry loop with `n + 1` attempts starting at index `j`
re-raises the error of its final call. -/
theorem retryLoop_all_errors {E α : Type} (f : Nat → Except E α) (e : Nat → E) :
    ∀ (n j : Nat), (∀ k, k ≤ n → f (j + k) = Except.error (e (j + k))) →
      retryLoop f (n + 1) j = Except.error (e (j + n)) := by
  intro n
  induction n with
  | zero =>
    intro j h
    simpa [retryLoop] using h 0 (Nat.le_refl 0)
  | succ m ih =>
    intro j h
    have h0 : f j = Except.error (e j) := by simpa using h 0 (Nat.zero_le _)
    have hrec := ih (j + 1) (fun k hk => by
      have hh := h (k + 1) (Nat.succ_le_succ hk)
      have hidx : j + (k + 1) = j + 1 + k := by omega
      rwa [hidx] at hh)
    have hidx : j + 1 + m = j + (m + 1) := by omega
    rw [hidx] at hrec
    simp only [retryLoop, h0]
    exact hrec

/-- Helper: if the calls at relative indices below `k` fail with caught
exceptions and the call at relative index `k ≤ n` succeeds, the retry loop
with `n + 1` attempts returns that success. -/
theorem retryLoop_ok_first {E α : Type} (f : Nat → Except E α) (e : Nat → E) (v : α) :
    ∀ (n j k : Nat), k ≤ n → (∀ m, m < k → f (j + m) = Except.error (e (j + m))) →
      f (j + k) = Except.ok v → retryLoop f (n + 1) j = Except.ok v := by
  intro n
  induction n with
  | zero =>
    intro j k hk hf hs
    have hk0 : k = 0 := Nat.le_zero.mp hk
    subst hk0
    simpa [retryLoop] using hs
  | succ m ih =>
    intro j k hk hf hs
    cases k with
    | zero =>
      rw [Nat.add_zero] at hs
      simp [retryLoop, hs]
    | succ k2 =>
      have h0 : f j = Except.error (e j) := by
        simpa using hf 0 (Nat.succ_pos k2)
      simp only [retryLoop, h0]
      refine ih (j + 1) k2 (Nat.le_of_succ_le_succ hk) (fun m2 hm2 => ?_) ?_
      · have hh := hf (m2 + 1) (Nat.succ_lt_succ hm2)
        have hidx : j + (m2 + 1) = j + 1 + m2 := by omega
        rwa [hidx] at hh
      · have hidx : j + (k2 + 1) = j + 1 + k2 := by omega
        rwa [hidx] at hs

/-- Helper: one add attempt on an HTTP error status (400-599) raises the
`HTTPError` of that status. -/
theorem add_once_error (url : String) (c : Nat) (h4 : 400 ≤ c) (h6 : c < 600) :
    add_etcd_member_once url c = Except.error (ReqError.httpError c) := by
  have hne : ¬ c = 201 := by omega
  simp [add_etcd_member_once, raise_for_status, hne, h4, h6, Except.map]

/-- Helper: one `etcd_start.py` add attempt on an HTTP error status other
than 409 raises the `HTTPError` of that status. -/
theorem add_once_s_error (url : String) (c : Nat) (h4 : 400 ≤ c) (h6 : c < 600)
    (h409 : c ≠ 409) :
    add_etcd_member_once_s url c = Except.error (ReqError.httpError c) := by
  have hne : ¬ (c = 201 ∨ c = 409) := by omega
  simp [add_etcd_member_once_s, raise_for_status, hne, h4, h6, Except.map]

/-- Helper: the serialization of `entrypoint.py` succeeds exactly when every
member with a non-empty name has a non-empty `peerURLs`. -/
theorem memberItems_isSome_iff :
    ∀ peers : List Member,
      (memberItems peers).isSome = true ↔
        ∀ m ∈ peers, m.name ≠ "" → m.peerURLs ≠ [] := by
  intro peers
  induction peers with
  | nil => simp [memberItems]
  | cons m rest ih =>
    by_cases hname : m.name = ""
    · simp [memberItems, hname, ih, List.forall_mem_cons]
    · cases hurl : m.peerURLs with
      | nil => simp [memberItems, hname, hurl, List.forall_mem_cons]
      | cons u us =>
        cases hrest : memberItems rest with
        | none =>
          simp [memberItems, hname, hurl, hrest, List.forall_mem_cons, ← ih]
        | some l =>
          simp [memberItems, hname, hurl, hrest, List.forall_mem_cons, ← ih]

/-- Helper: the serialization of `etcd_start.py` succeeds exactly when every
member with a non-empty name has a non-empty `peerURLs`. -/
theorem startMemberItems_isSome_iff :
    ∀ peers : List Member,
      (startMemberItems peers).isSome = true ↔
        ∀ m ∈ peers, m.name ≠ "" → m.peerURLs ≠ [] := by
  intro peers
  induction peers with
  | nil => simp [startMemberItems]
  | cons m rest ih =>
    by_cases hname : m.name = ""
    · have hlen : ¬ 0 < m.name.length := by rw [hname]; decide
      simp [startMemberItems, hname, hlen, ih, List.forall_mem_cons]
    · have hlen : 0 < m.name.length := (string_length_pos_iff m.name).mpr hname
      cases hurl : m.peerURLs with
      | nil => simp [startMemberItems, hname, hlen, hurl, List.forall_mem_cons]
      | cons u us =>
        cases hrest : startMemberItems rest with
        | none =>
          simp [startMemberItems, hname, hlen, hurl, hrest,
            List.forall_mem_cons, ← ih]
        | some l =>
          simp [startMemberItems, hname, hlen, hurl, hrest,
            List.forall_mem_cons, ← ih]

/-- Claim C1: for every probe outcome in which the member list is empty, and
also when the initial list probe fails with a `ConnectionError`, the join
sequence emits the Bootstrap plan (`start_etcd(config, bootstrap=True)`) and
never a Join plan. -/
theorem C1_empty_probe_bootstraps (cfg : Config) (env : JoinEnv)
    (h : env.probe = none ∨ env.probe = some []) :
    (joinSequence cfg env).2 = some Plan.bootstrap := by
  cases h with
  | inl h => unfold joinSequence; rw [h]
  | inr h => unfold joinSequence; rw [h]; rfl

/-- Witness for C1: a connection failure on the initial probe yields
Bootstrap at a concrete configuration. -/
theorem C1_empty_probe_bootstraps_witness :
    (joinSequence selfCfg ⟨none, []⟩).2 = some Plan.bootstrap :=
  C1_empty_probe_bootstraps selfCfg ⟨none, []⟩ (Or.inl rfl)

/-- Counterexample to claim C2: at a concrete member list that contains the
node itself, the join sequence's request trace is GET, GET, DELETE, POST —
both GETs happen before the DELETE, and no member-list fetch occurs between
the DELETE and the add, contradicting the claimed re-probe after the
delete. -/
theorem C2_counterexample :
    (joinSequence selfCfg envWithSelf).1 =
      [ApiCall.listCall, ApiCall.listCall, ApiCall.deleteCall (some "abc"),
       ApiCall.addCall "http://n1:2380"] ∧
    reprobeAfterDelete (joinSequence selfCfg envWithSelf).1 = false := by
  constructor <;> rfl

/-- Claim C2 as amended: for every member list whose serialization is
non-empty and contains `selfName` as a substring, one pass of the join
sequence issues exactly one delete (of the id the second fetch resolves for
the self name) before the single add, but the second member-list fetch
happens before the delete, not after it: the post-delete peer set is the
second fetch filtered locally, with no re-probe between the delete and the
add. -/
theorem C2_amended_delete_before_add_no_reprobe (cfg : Config) (env : JoinEnv)
    (peers : List Member) (s i s2 : String)
    (hp : env.probe = some peers)
    (hs : etcd_members_as_string peers = some s)
    (hne : s ≠ "")
    (hin : strIn cfg.name s = true)
    (hid : get_etcd_member_id env.relist cfg.name = some i)
    (hs2 : etcd_members_as_string
        (env.relist.filter (fun p => p.name != cfg.name)) = some s2) :
    joinSequence cfg env =
      ([ApiCall.listCall, ApiCall.listCall, ApiCall.deleteCall (some i),
        ApiCall.addCall cfg.peer_url],
       some (Plan.join (s2 ++ "," ++ member_name cfg))) := by
  simp [joinSequence, delete_etcd_member, hp, hs, hne, hin, hid, hs2]

/-- Witness for C2 as amended, at the concrete scenario-3 inputs. -/
theorem C2_amended_witness :
    joinSequence selfCfg envWithSelf =
      ([ApiCall.listCall, ApiCall.listCall, ApiCall.deleteCall (some "abc"),
        ApiCall.addCall selfCfg.peer_url],
       some (Plan.join ("n2=http://p2:2380" ++ "," ++ member_name selfCfg))) :=
  C2_amended_delete_before_add_no_reprobe selfCfg envWithSelf peersWithSelf
    "n1=http://p1:2380,n2=http://p2:2380" "abc" "n2=http://p2:2380"
    rfl rfl (by decide) (by decide) rfl rfl

/-- Counterexample to claim C3: the non-empty member list whose single
member has an empty name does not contain the self name, yet the join
sequence emits Bootstrap, not the Join plan with peer set
`"n1=http://n1:2380"` the claim requires. -/
theorem C3_counterexample :
    (joinSequence selfCfg ⟨some emptyNamePeers, emptyNamePeers⟩).2 =
      some Plan.bootstrap ∧
    (joinSequence selfCfg ⟨some emptyNamePeers, emptyNamePeers⟩).2 ≠
      some (Plan.join "n1=http://n1:2380") := by
  constructor <;> decide

/-- Claim C3 as amended: for every member list whose serialization (comma
joined `name=peerURL` pairs in list order, members with an empty name
omitted) is non-empty and does not contain `selfName` as a substring, one
pass of the join sequence makes exactly one add call and emits the Join plan
whose peer set is that serialization with the single self entry
`selfName=selfPeerURL` appended last. -/
theorem C3_amended_peer_set_appends_self (cfg : Config) (env : JoinEnv)
    (peers : List Member) (s : String)
    (hp : env.probe = some peers)
    (hs : etcd_members_as_string peers = some s)
    (hne : s ≠ "")
    (hnotin : strIn cfg.name s = false) :
    joinSequence cfg env =
      ([ApiCall.listCall, ApiCall.addCall cfg.peer_url],
       some (Plan.join (s ++ "," ++ member_name cfg))) := by
  simp [joinSequence, hp, hs, hne, hnotin]

/-- Witness for C3 as amended, at the concrete scenario-2 inputs. -/
theorem C3_amended_witness :
    joinSequence scen2Cfg ⟨some scen2Peers, scen2Peers⟩ =
      ([ApiCall.listCall, ApiCall.addCall "http://10.0.0.1:2380"],
       some (Plan.join ("n2=http://10.0.0.2:2380" ++ "," ++ member_name scen2Cfg))) :=
  C3_amended_peer_set_appends_self scen2Cfg ⟨some scen2Peers, scen2Peers⟩
    scen2Peers "n2=http://10.0.0.2:2380" rfl rfl (by decide) (by decide)

/-- Claim C4: under the retry policy with attempt count `N` (default 5), an
operation that fails with a caught (retryable) error on its first `N - 1`
calls and succeeds on call `N` returns the success value, and an operation
that fails on all `N` calls has the final call's error propagated to the
caller. -/
theorem C4_retry_policy {E α : Type} (f : Nat → Except E α) (e : Nat → E)
    (v : α) (N : Nat) (hN : 1 ≤ N) :
    ((∀ k, k + 1 < N → f k = Except.error (e k)) → f (N - 1) = Except.ok v →
        retryRun f N = Except.ok v) ∧
    ((∀ k, k < N → f k = Except.error (e k)) →
        retryRun f N = Except.error (e (N - 1))) := by
  obtain ⟨n, rfl⟩ : ∃ n, N = n + 1 := ⟨N - 1, by omega⟩
  constructor
  · intro h1 h2
    have := retryLoop_ok_first f e v n 0 n (Nat.le_refl n)
      (fun m hm => by simpa using h1 m (by omega)) (by simpa using h2)
    simpa [retryRun] using this
  · intro h1
    have := retryLoop_all_errors f e n 0 (fun k hk => by simpa using h1 k (by omega))
    simpa [retryRun] using this

/-- Witness for C4 at the default attempt budget of 5: four retryable
failures then a success yield the success value; five failures yield the
fifth call's error. -/
theorem C4_retry_policy_witness :
    retryRun retryDemoA connection_attempts = Except.ok 42 ∧
    retryRun retryDemoB connection_attempts = Except.error 4 := by
  have hA := C4_retry_policy retryDemoA (fun k => k) 42 5 (by omega)
  have hB := C4_retry_policy retryDemoB (fun k => k) 42 5 (by omega)
  constructor
  · have := hA.1 (fun k hk => by
      have hk4 : k < 4 := by omega
      simp [retryDemoA, hk4]) (by rfl)
    simpa [connection_attempts] using this
  · have := hB.2 (fun k _ => rfl)
    simpa [connection_attempts] using this

/-- Counterexample to claim C5: an add whose POST first returns 404 (a
non-500 error status the claim calls fatal and never-retried) and then 201
is in fact retried by the wrapper and returns the success value instead of
propagating the 404 error. -/
theorem C5_counterexample :
    add_etcd_member "http://n1:2380" (fun i => if i = 0 then 404 else 201) =
      Except.ok (some "http://n1:2380") ∧
    add_etcd_member "http://n1:2380" (fun i => if i = 0 then 404 else 201) ≠
      Except.error (ReqError.httpError 404) := by
  have h : add_etcd_member "http://n1:2380" (fun i => if i = 0 then 404 else 201) =
      Except.ok (some "http://n1:2380") := rfl
  refine ⟨h, ?_⟩
  rw [h]
  simp

/-- Claim C5 as amended: in the `entrypoint.py` `_add_etcd_member`, 201 is
the only success status and every HTTP error status (400-599, the 500 case
included) raises an `HTTPError` that the retry wrapper catches: the call is
retried up to the attempt budget and the final error propagates only once
the budget is exhausted, so no non-500 status propagates without retry; in
the `etcd_start.py` variant the behavior is the same for every error status
except 409, which is a second success case there that returns immediately
and never raises. -/
theorem C5_amended_http_errors_retried (url : String) (c k : Nat)
    (h4 : 400 ≤ c) (h6 : c < 600) (hk : k ≤ 4) :
    add_etcd_member url (fun _ => c) = Except.error (ReqError.httpError c) ∧
    add_etcd_member url (fun i => if i < k then c else 201) =
      Except.ok (some url) ∧
    add_etcd_member_s url (fun _ => 409) = Except.ok (some url) ∧
    (c ≠ 409 →
      add_etcd_member_s url (fun _ => c) = Except.error (ReqError.httpError c)) ∧
    (c ≠ 409 →
      add_etcd_member_s url (fun i => if i < k then c else 201) =
        Except.ok (some url)) := by
  refine ⟨?_, ?_, rfl, fun h409 => ?_, fun h409 => ?_⟩
  · have := retryLoop_all_errors (fun _ => add_etcd_member_once url c)
      (fun _ => ReqError.httpError c) 4 0
      (fun m _ => add_once_error url c h4 h6)
    simpa [add_etcd_member, retryRun, connection_attempts] using this
  · have := retryLoop_ok_first
      (fun i => add_etcd_member_once url (if i < k then c else 201))
      (fun _ => ReqError.httpError c) (some url) 4 0 k hk
      (fun m hm => by
        have h0m : 0 + m < k := by omega
        simp only [h0m, if_pos]
        exact add_once_error url c h4 h6)
      (by
        have hkk : ¬ 0 + k < k := by omega
        simp [hkk, add_etcd_member_once])
    simpa [add_etcd_member, retryRun, connection_attempts] using this
  · have := retryLoop_all_errors (fun _ => add_etcd_member_once_s url c)
      (fun _ => ReqError.httpError c) 4 0
      (fun m _ => add_once_s_error url c h4 h6 h409)
    simpa [add_etcd_member_s, retryRun, connection_attempts] using this
  · have := retryLoop_ok_first
      (fun i => add_etcd_member_once_s url (if i < k then c else 201))
      (fun _ => ReqError.httpError c) (some url) 4 0 k hk
      (fun m hm => by
        have h0m : 0 + m < k := by omega
        simp only [h0m, if_pos]
        exact add_once_s_error url c h4 h6 h409)
      (by
        have hkk : ¬ 0 + k < k := by omega
        simp [hkk, add_etcd_member_once_s])
    simpa [add_etcd_member_s, retryRun, connection_attempts] using this

/-- Witness for C5 as amended: a permanent 404 propagates only after the
five-call budget in both variants; a 404 on the first two calls followed by
a 201 returns success in both; a 409 is an immediate success in the
`etcd_start.py` variant. -/
theorem C5_amended_witness :
    add_etcd_member "u" (fun _ => 404) = Except.error (ReqError.httpError 404) ∧
    add_etcd_member "u" (fun i => if i < 2 then 404 else 201) =
      Except.ok (some "u") ∧
    add_etcd_member_s "u" (fun _ => 409) = Except.ok (some "u") ∧
    add_etcd_member_s "u" (fun _ => 404) = Except.error (ReqError.httpError 404) ∧
    add_etcd_member_s "u" (fun i => if i < 2 then 404 else 201) =
      Except.ok (some "u") := by
  have h := C5_amended_http_errors_retried "u" 404 2 (by omega) (by omega) (by omega)
  exact ⟨h.1, h.2.1, h.2.2.1, h.2.2.2.1 (by omega), h.2.2.2.2 (by omega)⟩

/-- Claim C6: `resolveId` returns the id of the first member whose name
matches, in list order, in both the entrypoint variant (list of member
objects) and the watcher variant (dict of id to member data, in iteration
order); on a list with two entries sharing a name the result is the
first-encountered entry's id. -/
theorem C6_resolve_first_match (peers : List Member)
    (members : List (String × String)) (name : String) :
    get_etcd_member_id peers name = resolveIdSpec peers name ∧
    get_etcd_member_id_w members name =
      (members.find? (fun kv => kv.2 == name)).map Prod.fst ∧
    get_etcd_member_id
      [⟨"a", "dup", ["u1"]⟩, ⟨"b", "dup", ["u2"]⟩] "dup" = some "a" :=
  ⟨head_filter_map_eq_find Member.id _ peers,
   head_filter_map_eq_find Prod.fst _ members, rfl⟩

/-- Counterexample to claim C7: in the watcher deletion path, deleting a
name that resolves to no id returns `False` (so the watch loop logs
"Delete ... failed"), and a delete whose DELETE request returns 404
(not found) also returns `False`; neither outcome is reported as success. -/
theorem C7_counterexample :
    delete_etcd_member_w watcherMembers "etcd-2" (fun _ => 204) = false ∧
    delete_etcd_member_w [("xyz", "etcd-2")] "etcd-2" (fun _ => 404) = false := by
  constructor <;> rfl

/-- Claim C7 as amended: the watcher's `_delete_etcd_member` raises no
error in any case — it is total and the watch loop always proceeds to the
next event — but it reports success (returns `True`) exactly when the name
resolves to an id and the DELETE of that id returns 204; an absent id or a
not-found DELETE is reported as a failed delete, not as success. -/
theorem C7_amended_success_iff_deleted (members : List (String × String))
    (name : String) (deleteStatus : String → Nat) :
    delete_etcd_member_w members name deleteStatus = true ↔
      ∃ i, get_etcd_member_id_w members name = some i ∧ deleteStatus i = 204 := by
  unfold delete_etcd_member_w
  cases h : get_etcd_member_id_w members name with
  | none => simp
  | some i => simp

/-- Counterexample to claim C8: an event whose kind is "Node" (not "Pod"),
with a reason in the default trigger set and "etcd" in the involved name,
still triggers a member-deletion attempt -- the watcher checks neither the
kind nor the namespace of the decoded event. -/
theorem C8_counterexample :
    (processLines REASONS
      [LineData.ev ⟨"Node", "etcd-2", "kube-system", "Killing"⟩]).1 =
      ["etcd-2"] ∧
    ("Node" : String) ≠ "Pod" := by
  constructor
  · rfl
  · decide

/-- Claim C8 as amended: the watcher attempts a member deletion for a
decoded event exactly when the event's reason is a member of the configured
trigger-reason list and the string "etcd" occurs in the involved object's
name; the event's kind and namespace fields are not consulted (namespace
scoping happens only through the watch URL). -/
theorem C8_amended_trigger_conditions (reasons : List String) (e : KEvent)
    (k n : String) :
    ((processLines reasons [LineData.ev e]).1 ≠ [] ↔
        e.reason ∈ reasons ∧ strIn "etcd" e.name = true) ∧
    processLines reasons [LineData.ev ⟨k, e.name, n, e.reason⟩] =
      processLines reasons [LineData.ev e] := by
  constructor
  · simp only [processLines, watcherActs]
    cases hr : strElem e.reason reasons <;>
      cases hi : strIn "etcd" e.name <;>
        simp_all [← strElem_eq_true_iff]
  · rfl

/-- Counterexample to claim C9: a malformed first line makes `json.loads`
raise an uncaught exception, so the watch loop attempts no deletion for the
well-formed actionable event that follows and terminates instead of
skipping the single bad event. -/
theorem C9_counterexample :
    processLines REASONS
      [LineData.malformed, LineData.ev ⟨"Pod", "etcd-5", "ccp", "Killing"⟩] =
      ([], true) := rfl

/-- Claim C9 as amended: a malformed event-feed line is not skipped — the
decode error is uncaught, no later line of the stream is processed and the
watcher process terminates; only a stream that ends without a malformed
line is consumed to its end, after which the outer loop reconnects. -/
theorem C9_amended_malformed_terminates (reasons : List String)
    (rest : List LineData) (evs : List KEvent) :
    processLines reasons (LineData.malformed :: rest) = ([], true) ∧
    (processLines reasons (evs.map LineData.ev)).2 = false := by
  refine ⟨rfl, ?_⟩
  induction evs with
  | nil => rfl
  | cons e es ih =>
    simp only [List.map_cons, processLines]
    split <;> simpa using ih

/-- Claim C10: the peer-set serializations of `entrypoint.py` and
`etcd_start.py` index `peerURLs[0]` only for members with a non-empty name,
so they are well-defined exactly when every member with a non-empty name
has a non-empty `peerURLs` array; a member with a non-empty name and an
empty array reaches the indexing branch and the serialization fails. -/
theorem C10_serialization_totality (peers : List Member) :
    ((etcd_members_as_string peers).isSome = true ↔
        ∀ m ∈ peers, m.name ≠ "" → m.peerURLs ≠ []) ∧
    ((get_cluster_members_str peers).isSome = true ↔
        ∀ m ∈ peers, m.name ≠ "" → m.peerURLs ≠ []) := by
  have h1 : (etcd_members_as_string peers).isSome = (memberItems peers).isSome := by
    unfold etcd_members_as_string
    cases memberItems peers <;> rfl
  have h2 : (get_cluster_members_str peers).isSome = (startMemberItems peers).isSome := by
    unfold get_cluster_members_str
    cases startMemberItems peers <;> rfl
  rw [h1, h2, memberItems_isSome_iff, startMemberItems_isSome_iff]
  exact ⟨Iff.rfl, Iff.rfl⟩
